import Mathlib

/-
  Verification of the Grimoire decklist-to-PDF job pipeline.

  This file gives a shallow embedding of the Go core (package `job`:
  rateLimitWait, CreateJob, GetJob, cleanupJobs, ProcessDecklistHandler,
  ParseCard, GeneratePDF, convertTo8Bit; and the api-server's
  handleGetJobPDF), and proves or refutes the specified properties.

  Modelling conventions:
  * machine time is whole milliseconds as Nat;
  * Go byte slices are `List Nat`;
  * network effects are modelled by explicit outcome parameters
    (one outcome per HTTP attempt, one fetched-bytes option per image URL);
  * Go's `range` over a map has no specified order, so every place the
    source ranges over `card.ImageURIs` takes an explicit iteration-order
    parameter constrained to be a permutation of the map's entries;
  * `time.Sleep` may oversleep, and a later `time.Now()` reads at least the
    wake time; both slacks are folded into a nonnegative `overshoot` input.
-/

namespace Grimoire

/-! ### Rate limiter: `rateLimitWait` (part_006 lines 71-83).

One call runs under `rateLimiterMutex`.  With `last` the stored
`lastRequestTime`, `now` the sampled `time.Now()` and `overshoot ≥ 0` the
sleep/sampling slack, the newly recorded `lastRequestTime` is:
if less than 100 ms elapsed, sleep exactly to `last + 100` and record a
time at least that; otherwise record a time at least `now`. -/

def rateLimitStep (last now overshoot : Nat) : Nat :=
  if now < last + 100 then last + 100 + overshoot else now + overshoot

/-- The successive `lastRequestTime` values recorded by a mutex-serialized
sequence of `rateLimitWait` calls, one `(now, overshoot)` sample per call. -/
def rateLimitTrace (last : Nat) : List (Nat × Nat) → List Nat
  | [] => []
  | s :: rest => rateLimitStep last s.1 s.2 :: rateLimitTrace (rateLimitStep last s.1 s.2) rest

theorem rateLimitStep_ge (last now o : Nat) : last + 100 ≤ rateLimitStep last now o := by
  unfold rateLimitStep
  split <;> omega

theorem rateLimitTrace_length (last : Nat) (ss : List (Nat × Nat)) :
    (rateLimitTrace last ss).length = ss.length := by
  induction ss generalizing last with
  | nil => rfl
  | cons s rest ih => simp [rateLimitTrace, ih]

theorem rateLimitTrace_getD_le (last : Nat) (ss : List (Nat × Nat)) (j k : Nat)
    (hjk : j ≤ k) (hk : k < ss.length) :
    (rateLimitTrace last ss).getD j 0 + (k - j) * 100 ≤ (rateLimitTrace last ss).getD k 0 := by
  induction ss generalizing last j k with
  | nil => simp at hk
  | cons s rest ih =>
    match k, j with
    | 0, 0 => simp
    | k + 1, 0 =>
      have hk' : k < rest.length := by simpa using hk
      have h1 := ih (rateLimitStep last s.1 s.2) 0 k (Nat.zero_le _) hk'
      have h2 : rateLimitStep last s.1 s.2 + 100
          ≤ (rateLimitTrace (rateLimitStep last s.1 s.2) rest).getD 0 0 := by
        cases rest with
        | nil => simp at hk'
        | cons t ts =>
          simpa [rateLimitTrace] using
            rateLimitStep_ge (rateLimitStep last s.1 s.2) t.1 t.2
      simp only [rateLimitTrace, List.getD_cons_zero, List.getD_cons_succ]
      omega
    | k + 1, j + 1 =>
      have h1 := ih (rateLimitStep last s.1 s.2) j k (by omega) (by simpa using hk)
      simp only [rateLimitTrace, List.getD_cons_succ]
      have : k + 1 - (j + 1) = k - j := by omega
      rw [this]
      exact h1

/-- C7: the rate limiter's recorded permitted-call times are at least 100 ms
apart for consecutive calls, so M serialized `rateLimitWait` calls (the mutex
serializes all concurrent callers; resolver and fetcher share the one
instance) span at least (M-1) x 100 ms between the first and last recorded
times. -/
theorem C7_rate_limiter_spacing (init : Nat) (samples : List (Nat × Nat)) (k : Nat)
    (hk : k + 1 < samples.length) :
    (rateLimitTrace init samples).getD k 0 + 100 ≤ (rateLimitTrace init samples).getD (k + 1) 0
    ∧ (rateLimitTrace init samples).getD 0 0 + (samples.length - 1) * 100
        ≤ (rateLimitTrace init samples).getD (samples.length - 1) 0 := by
  constructor
  · have h := rateLimitTrace_getD_le init samples k (k + 1) (by omega) hk
    have : k + 1 - k = 1 := by omega
    rw [this] at h
    omega
  · exact rateLimitTrace_getD_le init samples 0 (samples.length - 1) (Nat.zero_le _) (by omega)

/-- Witness for C7 at a concrete call sequence (three calls, the second
arriving early, the third late with sampling slack). -/
theorem C7_rate_limiter_spacing_witness :
    (rateLimitTrace 0 [(0, 0), (50, 0), (1000, 7)]).getD 0 0 + 100
        ≤ (rateLimitTrace 0 [(0, 0), (50, 0), (1000, 7)]).getD 1 0
    ∧ (rateLimitTrace 0 [(0, 0), (50, 0), (1000, 7)]).getD 0 0
          + ([(0, 0), (50, 0), (1000, 7)] : List (Nat × Nat)).length.pred * 100
        ≤ (rateLimitTrace 0 [(0, 0), (50, 0), (1000, 7)]).getD
            (([(0, 0), (50, 0), (1000, 7)] : List (Nat × Nat)).length - 1) 0 :=
  C7_rate_limiter_spacing 0 [(0, 0), (50, 0), (1000, 7)] 0 (by decide)

/-! ### Job store: `CreateJob`, `GetJob`, `cleanupJobs`
(part_006 lines 107-132 and 145-162).

The store is the global `jobs sync.Map`, modelled as a lookup function.
Times are milliseconds; 1 hour = 3600000 ms. -/

structure StoredJob where
  status : String
  createdAt : Nat
deriving DecidableEq

abbrev JobStore := String → Option StoredJob

def GetJob (store : JobStore) (id : String) : Option StoredJob := store id

/-- CreateJob stores a fresh "queued" record under a fresh id, then enqueues
the task; on enqueue failure it deletes the record again and returns the
error (modelled as `none` in the second component). -/
def CreateJob (store : JobStore) (newId : String) (now : Nat) (enqueueOK : Bool) :
    JobStore × Option String :=
  let store1 := Function.update store newId (some ⟨"queued", now⟩)
  if enqueueOK then (store1, some newId)
  else (Function.update store1 newId none, none)

/-- One cycle of the cleanup ticker: a job is evicted exactly when
`time.Since(j.CreatedAt) > 1*time.Hour` at scan time, regardless of status. -/
def cleanupJobs (now : Nat) (store : JobStore) : JobStore :=
  fun id =>
    match store id with
    | none => none
    | some j => if 3600000 < now - j.createdAt then none else some j

/-- C8: when enqueuing the new job's task fails, CreateJob reports the error
to the submitter, the provisionally stored record is rolled back, and the
store is exactly as before, so the submission's job is not observable. -/
theorem C8_enqueue_failure_rollback (store : JobStore) (newId : String) (now : Nat)
    (hfresh : GetJob store newId = none) :
    (CreateJob store newId now false).2 = none
    ∧ (CreateJob store newId now false).1 = store
    ∧ GetJob (CreateJob store newId now false).1 newId = none := by
  have hC : CreateJob store newId now false
      = (Function.update (Function.update store newId (some ⟨"queued", now⟩)) newId none, none) :=
    rfl
  have h1 : (CreateJob store newId now false).1 = store := by
    rw [hC]
    show Function.update (Function.update store newId (some ⟨"queued", now⟩)) newId none = store
    rw [Function.update_idem]
    have hs : store newId = none := hfresh
    calc Function.update store newId none
        = Function.update store newId (store newId) := by rw [hs]
      _ = store := Function.update_eq_self _ _
  refine ⟨by rw [hC], h1, ?_⟩
  rw [h1]
  exact hfresh

/-- Witness for C8: a concrete empty store and fresh id. -/
theorem C8_enqueue_failure_rollback_witness :
    (CreateJob (fun s => none) "j1" 5 false).2 = none
    ∧ (CreateJob (fun s => none) "j1" 5 false).1 = (fun s => none)
    ∧ GetJob (CreateJob (fun s => none) "j1" 5 false).1 "j1" = none :=
  C8_enqueue_failure_rollback (fun s => none) "j1" 5 rfl

/-- C9: a cleanup cycle at time `now` removes a stored job exactly when its
`createdAt` lies more than one hour in the past, whatever its status; a job
at most one hour old stays retrievable by id unchanged. -/
theorem C9_cleanup_retention (now : Nat) (store : JobStore) (id : String) (j : StoredJob)
    (hj : GetJob store id = some j) :
    (3600000 < now - j.createdAt → GetJob (cleanupJobs now store) id = none)
    ∧ (now - j.createdAt ≤ 3600000 → GetJob (cleanupJobs now store) id = some j) := by
  unfold GetJob at hj
  unfold GetJob cleanupJobs
  rw [hj]
  constructor
  · intro h
    simp [h]
  · intro h
    show (if 3600000 < now - j.createdAt then none else some j) = some j
    rw [if_neg (by omega)]

/-- Demonstration store holding one job in a non-terminal status, created at
time 0. -/
def demoStore : JobStore :=
  fun id => if id = "a" then some ⟨"fetch", 0⟩ else none

/-- Witness for C9: a sweep 30 minutes after creation keeps the job; a sweep
just over an hour after creation deletes it, although its status is not
terminal. -/
theorem C9_cleanup_retention_witness :
    GetJob (cleanupJobs 1800000 demoStore) "a" = some ⟨"fetch", 0⟩
    ∧ GetJob (cleanupJobs 3600001 demoStore) "a" = none :=
  ⟨(C9_cleanup_retention 1800000 demoStore "a" ⟨"fetch", 0⟩ rfl).2 (by decide),
   (C9_cleanup_retention 3600001 demoStore "a" ⟨"fetch", 0⟩ rfl).1 (by decide)⟩

/-! ### Job lifecycle: `GrimoireJob` and its mutators
(part_006 lines 186-223), driven by `ProcessDecklistHandler`
(part_006 lines 226-359).

A `JobState` is the lock-protected mutable part of a `GrimoireJob`:
its status string, whether `PDF` is non-nil, and whether `Error` is non-nil.
Each mutator (`setStatus`, `setError`, `setPDF`) holds the write lock, so a
concurrent reader observes exactly the states between mutator calls;
`handlerTrace` lists them in order for each control path of the handler. -/

structure JobState where
  status : String
  pdfSet : Bool
  errSet : Bool
deriving DecidableEq

def initialJob : JobState := ⟨"queued", false, false⟩

def setStatus (s : String) (j : JobState) : JobState := ⟨s, j.pdfSet, j.errSet⟩

def setError (j : JobState) : JobState := ⟨"error", j.pdfSet, true⟩

def setPDF (j : JobState) : JobState := ⟨j.status, true, j.errSet⟩

/-- The four control paths of `ProcessDecklistHandler`: no non-blank lines;
some card resolution failed after retries; `GeneratePDF` returned an error;
full success. -/
inductive RunOutcome where
  | emptyDecklist
  | resolveFailed
  | generateFailed
  | success
deriving DecidableEq

def stParse : JobState := setStatus "parse" initialJob

def stFetch : JobState := setStatus "fetch" stParse

def stGenerate : JobState := setStatus "generate" stFetch

/-- Observable job states along each handler path, in program order: the
empty path sets "complete" directly after "parse" (no `setPDF`); the success
path calls `setPDF` before `setStatus "complete"`. -/
def handlerTrace : RunOutcome → List JobState
  | RunOutcome.emptyDecklist => [initialJob, stParse, setStatus "complete" stParse]
  | RunOutcome.resolveFailed => [initialJob, stParse, setError stParse]
  | RunOutcome.generateFailed => [initialJob, stParse, stFetch, stGenerate, setError stGenerate]
  | RunOutcome.success =>
      [initialJob, stParse, stFetch, stGenerate, setPDF stGenerate,
        setStatus "complete" (setPDF stGenerate)]

def isTerminal (s : JobState) : Bool := s.status == "complete" || s.status == "error"

/-- C2 counterexample: on the success path the handler sets the PDF while the
status is still "generate", so a concurrent reader observes a state with the
document set and status not "complete", refuting the claimed "document set iff
status complete" invariant. -/
theorem C2_job_invariant_counterexample :
    (⟨"generate", true, false⟩ : JobState) ∈ handlerTrace RunOutcome.success
    ∧ JobState.pdfSet ⟨"generate", true, false⟩ = true
    ∧ JobState.status ⟨"generate", true, false⟩ ≠ "complete" := by
  decide

/-- C2 amended: in every observable state of every handler path, the failure
field is set iff status is "error"; the document may be set only while status
is "generate" (immediately before completion) or "complete"; no path observes
both terminal statuses; and a terminal status is only ever the final
observable state, after which no field changes. -/
theorem C2_job_invariant_amended (o : RunOutcome) :
    (∀ s ∈ handlerTrace o,
      (s.errSet = true ↔ s.status = "error")
      ∧ (s.pdfSet = true → s.status = "generate" ∨ s.status = "complete"))
    ∧ ¬ ((∃ s ∈ handlerTrace o, s.status = "complete")
          ∧ (∃ s ∈ handlerTrace o, s.status = "error"))
    ∧ (∀ k, k < (handlerTrace o).length →
        isTerminal ((handlerTrace o).getD k initialJob) = true →
        k = (handlerTrace o).length - 1) := by
  cases o <;> decide

/-- Witness for C2 amended, on the success path at the state where the PDF
has just been stored. -/
theorem C2_job_invariant_amended_witness :
    (setPDF stGenerate).status = "generate" ∨ (setPDF stGenerate).status = "complete" :=
  ((C2_job_invariant_amended RunOutcome.success).1 (setPDF stGenerate) (by decide)).2 rfl

/-! ### Metadata lookup retry: `ParseCard` HTTP loop (part_006 lines 391-430)
and the handler's outer per-line retry (part_006 lines 289-300).

`outcome k` is what the k-th HTTP attempt of one `ParseCard` call returns
(`transportErr` for a `client.Get` error, `status c` otherwise); `jsonOK k`
is whether the k-th attempt's body decodes.  A `LookupRun` records how many
HTTP attempts were made, the retry delays slept (in ms, in order), and the
failure if any (`none` result = success). -/

inductive HttpOutcome where
  | transportErr
  | status (code : Nat)
deriving DecidableEq

inductive LookupFailure where
  | transportExhausted
  | throttleExhausted
  | apiError (code : Nat)
  | decodeFailed
deriving DecidableEq

structure LookupRun where
  attempts : Nat
  delays : List Nat
  result : Option LookupFailure
deriving DecidableEq

/-- The `for attempt := 0; attempt < maxRetries` loop of `ParseCard`, with
`fuel = maxRetries - attempt` (so `fuel = 1` means the last attempt, Go's
`attempt == maxRetries-1`); falling out of the loop is Go's normal exit.
A transport error retries after `baseDelay << attempt` = 100*2^attempt ms;
a 429 status retries after 5000*2^attempt ms; any other non-200 status
returns at once; a 200 status succeeds iff the JSON decodes. -/
def parseCardLoop (outcome : Nat → HttpOutcome) (jsonOK : Nat → Bool) :
    Nat → Nat → List Nat → LookupRun
  | 0, attempt, delays => ⟨attempt, delays, none⟩
  | fuel + 1, attempt, delays =>
    match outcome attempt with
    | HttpOutcome.transportErr =>
      if fuel = 0 then ⟨attempt + 1, delays, some LookupFailure.transportExhausted⟩
      else parseCardLoop outcome jsonOK fuel (attempt + 1) (delays ++ [100 * 2 ^ attempt])
    | HttpOutcome.status code =>
      if code = 429 then
        if fuel = 0 then ⟨attempt + 1, delays, some LookupFailure.throttleExhausted⟩
        else parseCardLoop outcome jsonOK fuel (attempt + 1) (delays ++ [5000 * 2 ^ attempt])
      else if code = 200 then
        if jsonOK attempt then ⟨attempt + 1, delays, none⟩
        else ⟨attempt + 1, delays, some LookupFailure.decodeFailed⟩
      else ⟨attempt + 1, delays, some (LookupFailure.apiError code)⟩

/-- One `ParseCard` invocation: `maxRetries = 3`, starting at attempt 0. -/
def parseCardRun (outcome : Nat → HttpOutcome) (jsonOK : Nat → Bool) : LookupRun :=
  parseCardLoop outcome jsonOK 3 0 []

/-- The handler's own retry around `ParseCard` for one decklist line
(`for attempt := 0; attempt < 3`): re-invoke while the whole call fails,
accumulating the total number of HTTP attempts made for the line. -/
def entryResolveLoop (runs : Nat → LookupRun) :
    Nat → Nat → Nat → Option LookupFailure → Nat × Option LookupFailure
  | 0, _, total, lastErr => (total, lastErr)
  | fuel + 1, attempt, total, _ =>
    match (runs attempt).result with
    | none => (total + (runs attempt).attempts, none)
    | some e => entryResolveLoop runs fuel (attempt + 1) (total + (runs attempt).attempts) (some e)

def entryResolve (runs : Nat → LookupRun) : Nat × Option LookupFailure :=
  entryResolveLoop runs 3 0 0 none

theorem parseCardLoop_attempts_le (outcome : Nat → HttpOutcome) (jsonOK : Nat → Bool)
    (fuel attempt : Nat) (delays : List Nat) :
    (parseCardLoop outcome jsonOK fuel attempt delays).attempts ≤ attempt + fuel := by
  induction fuel generalizing attempt delays with
  | zero => simp [parseCardLoop]
  | succ fuel ih =>
    unfold parseCardLoop
    split
    · split
      · show attempt + 1 ≤ attempt + (fuel + 1)
        omega
      · exact le_trans (ih (attempt + 1) _) (by omega)
    · split
      · split
        · show attempt + 1 ≤ attempt + (fuel + 1)
          omega
        · exact le_trans (ih (attempt + 1) _) (by omega)
      · split
        · split
          · show attempt + 1 ≤ attempt + (fuel + 1)
            omega
          · show attempt + 1 ≤ attempt + (fuel + 1)
            omega
        · show attempt + 1 ≤ attempt + (fuel + 1)
          omega

theorem entryResolveLoop_total_le (runs : Nat → LookupRun)
    (h : ∀ j, (runs j).attempts ≤ 3)
    (fuel attempt total : Nat) (lastErr : Option LookupFailure) :
    (entryResolveLoop runs fuel attempt total lastErr).1 ≤ total + fuel * 3 := by
  induction fuel generalizing attempt total lastErr with
  | zero => simp [entryResolveLoop]
  | succ fuel ih =>
    unfold entryResolveLoop
    cases hr : (runs attempt).result with
    | none =>
      have := h attempt
      simp only []
      omega
    | some e =>
      refine le_trans (ih (attempt + 1) (total + (runs attempt).attempts) (some e)) ?_
      have := h attempt
      omega

/-- C3 counterexample: with every HTTP attempt failing at transport level, one
decklist entry's metadata lookup makes 9 HTTP attempts in total (the handler
retries the whole 3-attempt `ParseCard` call 3 times), refuting the claimed
"at most 3 HTTP attempts in total". -/
theorem C3_retry_policy_counterexample :
    (entryResolve (fun x => parseCardRun (fun x => HttpOutcome.transportErr) (fun x => true))).1 = 9
    ∧ ¬ (entryResolve (fun x =>
          parseCardRun (fun x => HttpOutcome.transportErr) (fun x => true))).1 ≤ 3 := by
  decide

/-- C3 amended: one `ParseCard` invocation makes at most 3 HTTP attempts; a
transport failure retries with 100 ms doubling backoff and, exhausted, yields
the transport-exhaustion failure; a throttling (429) response retries after
5 s x 2^attempt and, exhausted, yields the distinct throttle-exhaustion
failure; a non-success status other than 429 fails the invocation immediately
with no further attempt and no backoff; and the handler retries a failed
invocation up to 3 times, so one entry makes at most 9 HTTP attempts. -/
theorem C3_retry_policy_amended (outcome : Nat → HttpOutcome) (jsonOK : Nat → Bool) (c : Nat) :
    (parseCardRun outcome jsonOK).attempts ≤ 3
    ∧ ((∀ k, outcome k = HttpOutcome.transportErr) →
        parseCardRun outcome jsonOK = ⟨3, [100, 200], some LookupFailure.transportExhausted⟩)
    ∧ ((∀ k, outcome k = HttpOutcome.status 429) →
        parseCardRun outcome jsonOK = ⟨3, [5000, 10000], some LookupFailure.throttleExhausted⟩)
    ∧ LookupFailure.throttleExhausted ≠ LookupFailure.transportExhausted
    ∧ (outcome 0 = HttpOutcome.status c → c ≠ 429 → c ≠ 200 →
        parseCardRun outcome jsonOK = ⟨1, [], some (LookupFailure.apiError c)⟩)
    ∧ (entryResolve (fun j => parseCardRun outcome jsonOK)).1 ≤ 9 := by
  refine ⟨parseCardLoop_attempts_le outcome jsonOK 3 0 [], ?_, ?_, by decide, ?_, ?_⟩
  · intro h
    simp [parseCardRun, parseCardLoop, h 0, h 1, h 2]
  · intro h
    simp [parseCardRun, parseCardLoop, h 0, h 1, h 2]
  · intro h h429 h200
    simp [parseCardRun, parseCardLoop, h, h429, h200]
  · exact entryResolveLoop_total_le _ (fun j => parseCardLoop_attempts_le outcome jsonOK 3 0 []) 3 0 0 none

/-- Witness for C3 amended: an always-throttled lookup makes exactly 3
attempts with the 5 s, 10 s delay schedule and ends in the throttle-specific
failure. -/
theorem C3_retry_policy_witness :
    parseCardRun (fun x => HttpOutcome.status 429) (fun x => true)
      = ⟨3, [5000, 10000], some LookupFailure.throttleExhausted⟩ :=
  (C3_retry_policy_amended (fun x => HttpOutcome.status 429) (fun x => true) 500).2.2.1
    (fun k => rfl)

/-! ### Cards and face image URIs: `Card` and the layout handling at the end
of `ParseCard` (part_006 lines 57-65 and 432-441).

`ImageURIs` is a Go `map[string]string`; we model its entry set as a list of
(face label, URL) pairs, listed front-then-back, and treat every `range`
over it as visiting the entries in an arbitrary order (see `admissible`). -/

abbrev URI := String

structure Card where
  quantity : Nat
  name : String
  setCode : String
  collector : String
  layout : String
  imageURIs : List (String × URI)
deriving DecidableEq

def defaultCard : Card := ⟨0, "", "", "", "", []⟩

def frontURI (setCode collector : String) : URI :=
  "https://api.scryfall.com/cards/" ++ setCode ++ "/" ++ collector ++ "?format=image&version=png"

def backURI (setCode collector : String) : URI :=
  frontURI setCode collector ++ "&face=back"

/-- Entries of the `ImageURIs` map built by `ParseCard`: front and back for a
transform or modal_dfc layout, front only otherwise. -/
def cardImageURIs (setCode collector layout : String) : List (String × URI) :=
  if layout = "transform" ∨ layout = "modal_dfc" then
    [("front", frontURI setCode collector), ("back", backURI setCode collector)]
  else
    [("front", frontURI setCode collector)]

/-! ### PDF assembly: `GeneratePDF` (part_006 lines 521-619).

`perm i q` is the iteration order Go's `range card.ImageURIs` happens to use
for the q-th copy of the i-th card; `admissible` says each such order is a
permutation of the map's entries.  `fetch i` is the result of
`FetchImageWithRetry` for the i-th URL (`none` = failed after retries, so
`errs[i]` is set); `order` is the real-time completion order in which the
fan-out goroutines write `imageData[i]`/`errs[i]`; `decodeOK b` is whether
`convertTo8Bit` + `ImageHolderByReader` succeed on bytes `b`; `writeOK` is
whether the final `pdf.WriteTo` succeeds. -/

def copiesURIs (quantity : Nat) (p : Nat → List (String × URI)) : List URI :=
  ((List.range quantity).map (fun k => (p k).map Prod.snd)).flatten

def allURIsFrom (perm : Nat → Nat → List (String × URI)) : Nat → List Card → List URI
  | _, [] => []
  | i, c :: cs => copiesURIs c.quantity (perm i) ++ allURIsFrom perm (i + 1) cs

/-- The flattened `allURIs` slice of `GeneratePDF`: cards in decklist order,
then copies 0..quantity-1, then the faces in that copy's iteration order. -/
def allURIs (cards : List Card) (perm : Nat → Nat → List (String × URI)) : List URI :=
  allURIsFrom perm 0 cards

/-- A face-iteration-order assignment is admissible when, for every card of
the list, each copy's order is a permutation of the card's `ImageURIs`
entries (Go guarantees nothing more about map iteration). -/
def admissible (cards : List Card) (perm : Nat → Nat → List (String × URI)) : Prop :=
  ∀ i q, i < cards.length → (perm i q).Perm (cards.getD i defaultCard).imageURIs

/-- One page of the produced document: the URI index it was added for, the
URI itself, and whether the artwork was actually placed (false when
`convertTo8Bit`/`ImageHolderByReader` failed and only the background fill
remains). -/
structure Page where
  idx : Nat
  uri : URI
  hasImage : Bool
deriving DecidableEq

/-- The position-indexed `imageData`/`errs` arrays after the fan-out barrier:
goroutine completions write `fetch i` into slot `i` in completion order. -/
def fetchResults (fetch : Nat → Option (List Nat)) (order : List Nat) :
    Nat → Option (List Nat) :=
  order.foldl (fun acc i => Function.update acc i (fetch i)) (fun x => none)

/-- The page-emission loop of `GeneratePDF` from URI index `i` on: a failed
fetch is skipped entirely; a successful fetch gets `pdf.AddPage()` plus the
background fill, and the artwork exactly when decoding succeeds. -/
def assembleFrom (res : Nat → Option (List Nat)) (decodeOK : List Nat → Bool) :
    Nat → List URI → List Page
  | _, [] => []
  | i, u :: us =>
    match res i with
    | none => assembleFrom res decodeOK (i + 1) us
    | some b => ⟨i, u, decodeOK b⟩ :: assembleFrom res decodeOK (i + 1) us

def assemblePages (uris : List URI) (res : Nat → Option (List Nat))
    (decodeOK : List Nat → Bool) : List Page :=
  assembleFrom res decodeOK 0 uris

/-- `GeneratePDF`: build `allURIs`; an empty slice writes out a valid empty
document; otherwise fan out the fetches, then emit pages in index order; a
`WriteTo` failure returns an error (`none`). -/
def GeneratePDF (cards : List Card) (perm : Nat → Nat → List (String × URI))
    (order : List Nat) (fetch : Nat → Option (List Nat)) (decodeOK : List Nat → Bool)
    (writeOK : Bool) : Option (List Page) :=
  let uris := allURIs cards perm
  if uris.isEmpty then
    if writeOK then some [] else none
  else if writeOK then
    some (assemblePages uris (fetchResults fetch order) decodeOK)
  else none

/-! ### Decklist text handling and the task handler:
`ProcessDecklistHandler` (part_006 lines 226-359) and the api-server's
`handleGetJobPDF` (src/cmd/api-server/main.go lines 97-131).

The handler normalizes CRLF and lone CR to LF, splits on LF, and keeps the
lines whose `strings.TrimSpace` is nonempty (the unmodified line is kept).
Decklist text is a `List Char`; blank means all-whitespace. -/

def normalizeNewlines : List Char → List Char
  | [] => []
  | '\r' :: '\n' :: rest => '\n' :: normalizeNewlines rest
  | '\r' :: rest => '\n' :: normalizeNewlines rest
  | c :: rest => c :: normalizeNewlines rest

def splitOnNewline : List Char → List (List Char)
  | [] => [[]]
  | c :: rest =>
    if c = '\n' then [] :: splitOnNewline rest
    else
      match splitOnNewline rest with
      | [] => [[c]]
      | l :: ls => (c :: l) :: ls

def isBlank (l : List Char) : Bool := l.all Char.isWhitespace

def nonEmptyLines (d : List Char) : List (List Char) :=
  (splitOnNewline (normalizeNewlines d)).filter (fun l => !isBlank l)

/-- The resolution stage's result collection (part_006 lines 268-338): one
goroutine per non-blank line resolves its card and sends it on
`resultsChan`; the handler appends each received card to `cards`
(append-on-completion, no position indexing), so the list handed to
`GeneratePDF` is the line-ordered resolutions `entries` reordered by the
scheduler-dependent completion order `completion` (a permutation of the
line indices). -/
def collectResolved (entries : List Card) (completion : List Nat) : List Card :=
  completion.map (fun i => entries.getD i defaultCard)

/-- A handler run: the observable job states in order and the stored
document, if any. -/
structure RunResult where
  trace : List JobState
  doc : Option (List Page)
deriving DecidableEq

def finalState (r : RunResult) : JobState := r.trace.getLastD initialJob

/-- `ProcessDecklistHandler` for one task: zero non-blank lines completes the
job at once with no document; `resolved = none` models some line's resolution
failing after all retries (fatal); otherwise the job stores the generated
document and completes, or errors if `GeneratePDF` failed.  `resolved = some
cards` stands for the card list as collected from `resultsChan`, i.e. in
resolution-completion order: for the faithful end-to-end run pass
`some (collectResolved entries completion)`, not the line-ordered entries
themselves. -/
def processDecklist (d : List Char) (resolved : Option (List Card))
    (perm : Nat → Nat → List (String × URI)) (order : List Nat)
    (fetch : Nat → Option (List Nat)) (decodeOK : List Nat → Bool)
    (writeOK : Bool) : RunResult :=
  if (nonEmptyLines d).isEmpty then
    ⟨handlerTrace RunOutcome.emptyDecklist, none⟩
  else
    match resolved with
    | none => ⟨handlerTrace RunOutcome.resolveFailed, none⟩
    | some cards =>
      match GeneratePDF cards perm order fetch decodeOK writeOK with
      | none => ⟨handlerTrace RunOutcome.generateFailed, none⟩
      | some pages => ⟨handlerTrace RunOutcome.success, some pages⟩

inductive PDFResponse where
  | notFound
  | jobFailed
  | notComplete (status : String)
  | pdfUnavailable
  | pdfBytes (doc : List Page)
deriving DecidableEq

/-- The api-server's PDF retrieval endpoint: unknown id, failed job,
not-yet-complete job, complete job with nil buffer, complete job with its
document, in that checking order. -/
def handleGetJobPDF (found : Bool) (st : JobState) (doc : Option (List Page)) : PDFResponse :=
  if !found then PDFResponse.notFound
  else if st.errSet then PDFResponse.jobFailed
  else if st.status ≠ "complete" then PDFResponse.notComplete st.status
  else
    match doc with
    | none => PDFResponse.pdfUnavailable
    | some pages => PDFResponse.pdfBytes pages

/-! ### Helper lemmas about the fan-out arrays and the page loop. -/

theorem fetchResults_foldl (fetch : Nat → Option (List Nat)) (order : List Nat)
    (acc : Nat → Option (List Nat)) (j : Nat) :
    (order.foldl (fun acc i => Function.update acc i (fetch i)) acc) j
      = if j ∈ order then fetch j else acc j := by
  induction order generalizing acc with
  | nil => simp
  | cons i rest ih =>
    simp only [List.foldl_cons, ih]
    by_cases hj : j ∈ rest
    · simp [hj]
    · by_cases hji : j = i
      · subst hji
        simp [hj]
      · simp [hj, hji, Function.update_noteq hji]

theorem fetchResults_eq (fetch : Nat → Option (List Nat)) (order : List Nat) (j : Nat)
    (hj : j ∈ order) : fetchResults fetch order j = fetch j := by
  unfold fetchResults
  rw [fetchResults_foldl]
  simp [hj]

theorem assembleFrom_congr (res1 res2 : Nat → Option (List Nat)) (dec : List Nat → Bool)
    (n : Nat) (us : List URI)
    (h : ∀ i, n ≤ i → i < n + us.length → res1 i = res2 i) :
    assembleFrom res1 dec n us = assembleFrom res2 dec n us := by
  induction us generalizing n with
  | nil => rfl
  | cons u us ih =>
    have h0 : res1 n = res2 n := h n (le_refl n) (by simp)
    have ht := ih (n + 1) (fun i h1 h2 => h i (by omega) (by simp only [List.length_cons]; omega))
    unfold assembleFrom
    rw [h0, ht]

theorem assembleFrom_map_uri_sublist (res : Nat → Option (List Nat)) (dec : List Nat → Bool)
    (n : Nat) (us : List URI) :
    List.Sublist ((assembleFrom res dec n us).map Page.uri) us := by
  induction us generalizing n with
  | nil => simp [assembleFrom]
  | cons u us ih =>
    unfold assembleFrom
    cases res n with
    | none => exact List.Sublist.cons u (ih (n + 1))
    | some b => simpa using List.Sublist.cons₂ u (ih (n + 1))

theorem assembleFrom_map_uri_all (res : Nat → Option (List Nat)) (dec : List Nat → Bool)
    (n : Nat) (us : List URI)
    (h : ∀ i, n ≤ i → i < n + us.length → (res i).isSome) :
    (assembleFrom res dec n us).map Page.uri = us := by
  induction us generalizing n with
  | nil => rfl
  | cons u us ih =>
    have h0 := h n (le_refl n) (by simp)
    unfold assembleFrom
    cases hr : res n with
    | none =>
      rw [hr] at h0
      simp at h0
    | some b =>
      have ht := ih (n + 1) (fun i h1 h2 => h i (by omega) (by simp only [List.length_cons]; omega))
      simp [ht]

theorem assembleFrom_map_idx (res : Nat → Option (List Nat)) (dec : List Nat → Bool)
    (n : Nat) (us : List URI) :
    (assembleFrom res dec n us).map Page.idx
      = (List.range' n us.length).filter (fun i => (res i).isSome) := by
  induction us generalizing n with
  | nil => rfl
  | cons u us ih =>
    unfold assembleFrom
    rw [List.length_cons, List.range'_succ]
    cases hr : res n with
    | none => simp [hr, ih (n + 1)]
    | some b => simp [hr, ih (n + 1)]

theorem assembleFrom_hasImage (res : Nat → Option (List Nat)) (dec : List Nat → Bool)
    (n : Nat) (us : List URI) (p : Page) (hp : p ∈ assembleFrom res dec n us) :
    ∃ b, res p.idx = some b ∧ p.hasImage = dec b := by
  induction us generalizing n with
  | nil => simp [assembleFrom] at hp
  | cons u us ih =>
    unfold assembleFrom at hp
    cases hr : res n with
    | none =>
      rw [hr] at hp
      exact ih (n + 1) hp
    | some b =>
      rw [hr] at hp
      rcases List.mem_cons.mp hp with h | h
      · subst h
        exact ⟨b, hr, rfl⟩
      · exact ih (n + 1) h

/-- With any completion order covering every URI index (in particular, any
permutation of the index range), the assembled pages are those computed
directly from the per-index fetch results: completion order is irrelevant. -/
theorem generatePDF_collapse (cards : List Card) (perm : Nat → Nat → List (String × URI))
    (order : List Nat) (fetch : Nat → Option (List Nat)) (decodeOK : List Nat → Bool)
    (hord : order.Perm (List.range (allURIs cards perm).length)) :
    GeneratePDF cards perm order fetch decodeOK true
      = some (assemblePages (allURIs cards perm) fetch decodeOK) := by
  unfold GeneratePDF
  by_cases he : (allURIs cards perm).isEmpty
  · rw [if_pos he]
    simp only [List.isEmpty_iff] at he
    simp [assemblePages, he, assembleFrom]
  · rw [if_neg he, if_pos rfl]
    unfold assemblePages
    congr 1
    apply assembleFrom_congr
    intro i h1 h2
    apply fetchResults_eq
    rw [hord.mem_iff]
    simp only [List.mem_range]
    omega

/-- The total number of URIs contributed by one card's copies, when every
copy's iteration order has the length of the card's `ImageURIs`. -/
theorem copiesURIs_length (quantity : Nat) (p : Nat → List (String × URI)) (m : Nat)
    (h : ∀ k, (p k).length = m) :
    (copiesURIs quantity p).length = quantity * m := by
  unfold copiesURIs
  rw [List.length_flatten]
  have hrepl : List.map List.length ((List.range quantity).map (fun k => (p k).map Prod.snd))
      = List.replicate quantity m := by
    rw [List.map_map]
    refine List.eq_replicate_iff.mpr ⟨by simp, ?_⟩
    intro b hb
    rcases List.mem_map.mp hb with ⟨k, hk, hbk⟩
    simp only [Function.comp] at hbk
    rw [← hbk, List.length_map, h k]
  rw [hrepl, List.sum_replicate, smul_eq_mul]

theorem allURIsFrom_length (perm : Nat → Nat → List (String × URI)) (cards : List Card) (i : Nat)
    (hadm : ∀ k q, k < cards.length → (perm (i + k) q).Perm ((cards.getD k defaultCard).imageURIs)) :
    (allURIsFrom perm i cards).length
      = (cards.map (fun c => c.quantity * c.imageURIs.length)).sum := by
  induction cards generalizing i with
  | nil => rfl
  | cons c cs ih =>
    unfold allURIsFrom
    rw [List.length_append]
    have h0 : ∀ q, (perm i q).length = c.imageURIs.length := by
      intro q
      have hp := hadm 0 q (by simp)
      simpa using hp.length_eq
    rw [copiesURIs_length c.quantity (perm i) c.imageURIs.length h0]
    have ht := ih (i + 1) (fun k q hk => by
      have hp := hadm (k + 1) q (by simp only [List.length_cons]; omega)
      have hik : i + (k + 1) = i + 1 + k := by omega
      rw [hik] at hp
      simpa using hp)
    simp [ht]

theorem map_getD_range (l : List Card) :
    (List.range l.length).map (fun i => l.getD i defaultCard) = l := by
  apply List.ext_getElem
  · simp
  · intro k h1 h2
    simp [List.getD_eq_getElem?_getD, List.getElem?_eq_getElem h2]

/-- Whatever completion order the scheduler produces, the collected card list
is a permutation of the line-ordered resolutions. -/
theorem collectResolved_perm (entries : List Card) (completion : List Nat)
    (hcomp : completion.Perm (List.range entries.length)) :
    (collectResolved entries completion).Perm entries := by
  unfold collectResolved
  have h := hcomp.map (fun i => entries.getD i defaultCard)
  rw [map_getD_range] at h
  exact h

theorem processDecklist_resolved (d : List Char) (cards : List Card)
    (perm : Nat → Nat → List (String × URI)) (order : List Nat)
    (fetch : Nat → Option (List Nat)) (decodeOK : List Nat → Bool) (writeOK : Bool)
    (hne : ¬ (nonEmptyLines d).isEmpty = true) :
    processDecklist d (some cards) perm order fetch decodeOK writeOK
      = match GeneratePDF cards perm order fetch decodeOK writeOK with
        | none => ⟨handlerTrace RunOutcome.generateFailed, none⟩
        | some pages => ⟨handlerTrace RunOutcome.success, some pages⟩ := by
  unfold processDecklist
  rw [if_neg hne]

theorem processDecklist_ok (d : List Char) (cards : List Card)
    (perm : Nat → Nat → List (String × URI)) (order : List Nat)
    (fetch : Nat → Option (List Nat)) (decodeOK : List Nat → Bool) (writeOK : Bool)
    (hne : nonEmptyLines d ≠ []) (pages : List Page)
    (hgen : GeneratePDF cards perm order fetch decodeOK writeOK = some pages) :
    processDecklist d (some cards) perm order fetch decodeOK writeOK
      = ⟨handlerTrace RunOutcome.success, some pages⟩ := by
  rw [processDecklist_resolved d cards perm order fetch decodeOK writeOK
    (by simpa [List.isEmpty_iff] using hne)]
  rw [hgen]

theorem processDecklist_genFail (d : List Char) (cards : List Card)
    (perm : Nat → Nat → List (String × URI)) (order : List Nat)
    (fetch : Nat → Option (List Nat)) (decodeOK : List Nat → Bool) (writeOK : Bool)
    (hne : nonEmptyLines d ≠ [])
    (hgen : GeneratePDF cards perm order fetch decodeOK writeOK = none) :
    processDecklist d (some cards) perm order fetch decodeOK writeOK
      = ⟨handlerTrace RunOutcome.generateFailed, none⟩ := by
  rw [processDecklist_resolved d cards perm order fetch decodeOK writeOK
    (by simpa [List.isEmpty_iff] using hne)]
  rw [hgen]

theorem generatePDF_write_fail (cards : List Card) (perm : Nat → Nat → List (String × URI))
    (order : List Nat) (fetch : Nat → Option (List Nat)) (decodeOK : List Nat → Bool) :
    GeneratePDF cards perm order fetch decodeOK false = none := by
  simp [GeneratePDF]

/-! ### Concrete demonstration inputs. -/

def normalCard (nm setCode collector : String) (qty : Nat) : Card :=
  ⟨qty, nm, setCode, collector, "normal", cardImageURIs setCode collector "normal"⟩

def threeCards : List Card :=
  [normalCard "Alpha" "s" "1" 1, normalCard "Beta" "s" "2" 1, normalCard "Gamma" "s" "3" 1]

def mixedCards : List Card :=
  [⟨2, "Delver", "isd", "51", "transform", cardImageURIs "isd" "51" "transform"⟩,
   normalCard "Bolt" "lea" "162" 3]

/-- The canonical admissible iteration order: each copy visits the map
entries in their listed order. -/
def permOf (cards : List Card) : Nat → Nat → List (String × URI) :=
  fun i q => (cards.getD i defaultCard).imageURIs

theorem permOf_admissible (cards : List Card) : admissible cards (permOf cards) :=
  fun i q h => List.Perm.refl _

def mdfcCard : Card :=
  ⟨1, "Brutal Cathar", "mid", "19", "transform", cardImageURIs "mid" "19" "transform"⟩

/-- A possible map iteration order for `mdfcCard` that happens to visit the
"back" entry first; Go's randomized map iteration permits it. -/
def swappedPerm : Nat → Nat → List (String × URI) :=
  fun i q => [("back", backURI "mid" "19"), ("front", frontURI "mid" "19")]

def lineCardA : Card := normalCard "First" "s" "1" 1

def lineCardB : Card := normalCard "Second" "s" "2" 1

/-- Two single-face resolutions in decklist line order: line 0 resolves to
`lineCardA`, line 1 to `lineCardB`. -/
def twoLineCards : List Card := [lineCardA, lineCardB]

def fetchSkip1 : Nat → Option (List Nat) := fun i => if i = 1 then none else some [i]

def decNot1 : List Nat → Bool := fun b => if b = [1] then false else true

/-! ### Claims about page assembly and the handler. -/

/-- C1 counterexample, in two parts.  First, the handler collects resolved
cards from `resultsChan` in completion order: with two resolved single-face
lines and completion order 1,0 — a permutation of the line indices that the
scheduler may produce — the document places line 1's page before line 0's
page, refuting "all pages of line i precede all pages of line i+1" and the
claimed independence from completion order.  Second, one double-faced card
with an admissible map iteration order that happens to visit "back" first
gets its back page before its front page, refuting the claimed
front-before-back order. -/
theorem C1_page_order_counterexample :
    List.Perm [1, 0] (List.range twoLineCards.length)
    ∧ collectResolved twoLineCards [1, 0] = [lineCardB, lineCardA]
    ∧ (processDecklist ['z'] (some (collectResolved twoLineCards [1, 0]))
          (permOf (collectResolved twoLineCards [1, 0])) [0, 1] (fun i => some [i])
          (fun b => true) true).doc
        = some [⟨0, frontURI "s" "2", true⟩, ⟨1, frontURI "s" "1", true⟩]
    ∧ frontURI "s" "2" ≠ frontURI "s" "1"
    ∧ admissible [mdfcCard] swappedPerm
    ∧ GeneratePDF [mdfcCard] swappedPerm [0, 1] (fun i => some [i]) (fun b => true) true
        = some [⟨0, backURI "mid" "19", true⟩, ⟨1, frontURI "mid" "19", true⟩]
    ∧ backURI "mid" "19" ≠ frontURI "mid" "19" := by
  refine ⟨by decide, by decide, by decide, by decide, ?_, by decide, by decide⟩
  intro i q hi
  have h0 : i = 0 := Nat.lt_one_iff.mp (by simpa using hi)
  subst h0
  show List.Perm [("back", backURI "mid" "19"), ("front", frontURI "mid" "19")]
    (Card.imageURIs ([mdfcCard].getD 0 defaultCard))
  decide

/-- C1 amended: the line-ordered resolutions `entries` reach the assembler as
`collectResolved entries completion`, reordered by the scheduler-dependent
resolution completion order — always a permutation of the entries, but in no
guaranteed order.  For every such run, every admissible face-iteration order
and every image-fetch completion order: the stored document is exactly the
pages assembled from the position-indexed fetch results of the collected
list's `allURIs` (so, GIVEN the collected card list, page order does not
depend on the image-fetch completion order); within that list each card's
copies are consecutive and each copy's faces are a permutation of the card's
face set in that copy's map-iteration order; the emitted page URIs follow
`allURIs` as a sublist, equal to it when every fetch succeeds.  Neither
decklist line order nor front-before-back face order is guaranteed. -/
theorem C1_page_order_amended (d : List Char) (entries : List Card) (completion : List Nat)
    (perm : Nat → Nat → List (String × URI)) (order : List Nat)
    (fetch : Nat → Option (List Nat)) (decodeOK : List Nat → Bool)
    (hne : nonEmptyLines d ≠ [])
    (hcomp : completion.Perm (List.range entries.length))
    (hadm : admissible (collectResolved entries completion) perm)
    (hord : order.Perm
      (List.range (allURIs (collectResolved entries completion) perm).length)) :
    (processDecklist d (some (collectResolved entries completion)) perm order fetch
          decodeOK true).doc
      = some (assemblePages (allURIs (collectResolved entries completion) perm) fetch decodeOK)
    ∧ (collectResolved entries completion).Perm entries
    ∧ List.Sublist
        ((assemblePages (allURIs (collectResolved entries completion) perm) fetch
          decodeOK).map Page.uri)
        (allURIs (collectResolved entries completion) perm)
    ∧ ((∀ i, i < (allURIs (collectResolved entries completion) perm).length →
          (fetch i).isSome) →
        (assemblePages (allURIs (collectResolved entries completion) perm) fetch
          decodeOK).map Page.uri
          = allURIs (collectResolved entries completion) perm)
    ∧ (∀ i q, i < (collectResolved entries completion).length →
        ((perm i q).map Prod.snd).Perm
          (((collectResolved entries completion).getD i defaultCard).imageURIs.map
            Prod.snd)) := by
  have hrun := processDecklist_ok d (collectResolved entries completion) perm order fetch
    decodeOK true hne
    (assemblePages (allURIs (collectResolved entries completion) perm) fetch decodeOK)
    (generatePDF_collapse (collectResolved entries completion) perm order fetch decodeOK hord)
  refine ⟨by rw [hrun], collectResolved_perm entries completion hcomp,
    assembleFrom_map_uri_sublist fetch decodeOK 0
      (allURIs (collectResolved entries completion) perm), ?_, ?_⟩
  · intro hf
    exact assembleFrom_map_uri_all fetch decodeOK 0
      (allURIs (collectResolved entries completion) perm)
      (fun i h1 h2 => hf i (by omega))
  · intro i q hi
    exact (hadm i q hi).map Prod.snd

/-- Witness for C1 amended: three resolved single-face lines collected in
completion order 2,0,1 are a permutation of the line-ordered resolutions. -/
theorem C1_page_order_witness :
    (collectResolved threeCards [2, 0, 1]).Perm threeCards :=
  (C1_page_order_amended ['w'] threeCards [2, 0, 1]
      (permOf (collectResolved threeCards [2, 0, 1])) (List.range 3) (fun i => some [i])
      (fun b => true) (by decide) (by decide)
      (permOf_admissible (collectResolved threeCards [2, 0, 1])) (by decide)).2.1

/-- C4 counterexample: a decklist that is one bare newline has zero non-blank
lines; the handler sets status "complete" and returns without ever storing a
document, so the job completes with no document, contrary to the claim. -/
theorem C4_empty_decklist_counterexample :
    (finalState (processDecklist ['\n'] none (fun i q => []) [] (fun i => none)
        (fun b => false) true)).status = "complete"
    ∧ (processDecklist ['\n'] none (fun i q => []) [] (fun i => none)
        (fun b => false) true).doc = none := by
  decide

/-- C4 amended: a submission with zero non-blank lines reaches status
"complete" with its document left unset, and the PDF retrieval endpoint then
answers that the PDF is unavailable rather than serving an empty document. -/
theorem C4_empty_decklist_amended (d : List Char) (resolved : Option (List Card))
    (perm : Nat → Nat → List (String × URI)) (order : List Nat)
    (fetch : Nat → Option (List Nat)) (decodeOK : List Nat → Bool) (writeOK : Bool)
    (h : nonEmptyLines d = []) :
    (finalState (processDecklist d resolved perm order fetch decodeOK writeOK)).status = "complete"
    ∧ (processDecklist d resolved perm order fetch decodeOK writeOK).doc = none
    ∧ handleGetJobPDF true
        (finalState (processDecklist d resolved perm order fetch decodeOK writeOK))
        (processDecklist d resolved perm order fetch decodeOK writeOK).doc
      = PDFResponse.pdfUnavailable := by
  have hrun : processDecklist d resolved perm order fetch decodeOK writeOK
      = ⟨handlerTrace RunOutcome.emptyDecklist, none⟩ := by
    unfold processDecklist
    rw [h]
    rfl
  rw [hrun]
  decide

/-- Witness for C4 amended: a decklist of one carriage return and one blank. -/
theorem C4_empty_decklist_witness :
    (finalState (processDecklist ['\r', ' '] none (fun i q => []) [] (fun i => none)
        (fun b => true) false)).status = "complete"
    ∧ (processDecklist ['\r', ' '] none (fun i q => []) [] (fun i => none)
        (fun b => true) false).doc = none
    ∧ handleGetJobPDF true
        (finalState (processDecklist ['\r', ' '] none (fun i q => []) [] (fun i => none)
          (fun b => true) false))
        (processDecklist ['\r', ' '] none (fun i q => []) [] (fun i => none)
          (fun b => true) false).doc
      = PDFResponse.pdfUnavailable :=
  C4_empty_decklist_amended ['\r', ' '] none (fun i q => []) [] (fun i => none)
    (fun b => true) false rfl

/-- C5: when resolution succeeded for every line and the document is written,
a per-URL fetch failure does not abort the job: the final status is
"complete", and the document holds exactly one page per successfully fetched
index, in increasing index order. -/
theorem C5_partial_fetch_failure (d : List Char) (cards : List Card)
    (perm : Nat → Nat → List (String × URI)) (order : List Nat)
    (fetch : Nat → Option (List Nat)) (decodeOK : List Nat → Bool)
    (hne : nonEmptyLines d ≠ [])
    (hord : order.Perm (List.range (allURIs cards perm).length)) :
    (finalState (processDecklist d (some cards) perm order fetch decodeOK true)).status
        = "complete"
    ∧ (processDecklist d (some cards) perm order fetch decodeOK true).doc
        = some (assemblePages (allURIs cards perm) fetch decodeOK)
    ∧ (assemblePages (allURIs cards perm) fetch decodeOK).map Page.idx
        = (List.range (allURIs cards perm).length).filter (fun i => (fetch i).isSome) := by
  have hrun := processDecklist_ok d cards perm order fetch decodeOK true hne
    (assemblePages (allURIs cards perm) fetch decodeOK)
    (generatePDF_collapse cards perm order fetch decodeOK hord)
  rw [hrun]
  refine ⟨rfl, rfl, ?_⟩
  rw [List.range_eq_range' (allURIs cards perm).length]
  exact assembleFrom_map_idx fetch decodeOK 0 (allURIs cards perm)

/-- Witness for C5: 3 resolved single-face quantity-1 cards, the fetch of
index 1 always failing, completion order 2,0,1 — the job completes and the
document has exactly 2 pages, for indices 0 and 2 in order. -/
theorem C5_partial_fetch_failure_witness :
    ((finalState (processDecklist ['1'] (some threeCards) (permOf threeCards) [2, 0, 1]
          fetchSkip1 (fun b => true) true)).status = "complete"
      ∧ (processDecklist ['1'] (some threeCards) (permOf threeCards) [2, 0, 1]
          fetchSkip1 (fun b => true) true).doc
          = some (assemblePages (allURIs threeCards (permOf threeCards)) fetchSkip1
              (fun b => true))
      ∧ (assemblePages (allURIs threeCards (permOf threeCards)) fetchSkip1
            (fun b => true)).map Page.idx
          = (List.range (allURIs threeCards (permOf threeCards)).length).filter
              (fun i => (fetchSkip1 i).isSome))
    ∧ Option.map List.length (processDecklist ['1'] (some threeCards) (permOf threeCards)
        [2, 0, 1] fetchSkip1 (fun b => true) true).doc = some 2 :=
  ⟨C5_partial_fetch_failure ['1'] threeCards (permOf threeCards) [2, 0, 1] fetchSkip1
      (fun b => true) (by decide) (by decide),
   by decide⟩

/-- C6: a fully successful run (admissible iteration orders, a completion
order covering all indices, every fetch succeeding, the document written)
produces exactly the sum over cards of quantity times face count, where the
face count is 2 exactly for a transform or modal_dfc layout as classified by
the catalog response in `ParseCard`. -/
theorem C6_page_count (cards : List Card) (perm : Nat → Nat → List (String × URI))
    (order : List Nat) (fetch : Nat → Option (List Nat)) (decodeOK : List Nat → Bool)
    (hadm : admissible cards perm)
    (himg : ∀ c ∈ cards, c.imageURIs = cardImageURIs c.setCode c.collector c.layout)
    (hord : order.Perm (List.range (allURIs cards perm).length))
    (hfetch : ∀ i, i < (allURIs cards perm).length → (fetch i).isSome) :
    Option.map List.length (GeneratePDF cards perm order fetch decodeOK true)
      = some ((cards.map (fun c =>
          c.quantity * (if c.layout = "transform" ∨ c.layout = "modal_dfc" then 2 else 1))).sum) := by
  rw [generatePDF_collapse cards perm order fetch decodeOK hord]
  show some ((assemblePages (allURIs cards perm) fetch decodeOK).length) = _
  have hall : (assemblePages (allURIs cards perm) fetch decodeOK).map Page.uri
      = allURIs cards perm :=
    assembleFrom_map_uri_all fetch decodeOK 0 (allURIs cards perm)
      (fun i h1 h2 => hfetch i (by omega))
  have hlen : (assemblePages (allURIs cards perm) fetch decodeOK).length
      = (allURIs cards perm).length := by
    calc (assemblePages (allURIs cards perm) fetch decodeOK).length
        = ((assemblePages (allURIs cards perm) fetch decodeOK).map Page.uri).length := by
          rw [List.length_map]
      _ = (allURIs cards perm).length := by rw [hall]
  have huri : (allURIs cards perm).length
      = (cards.map (fun c => c.quantity * c.imageURIs.length)).sum := by
    apply allURIsFrom_length
    intro k q hk
    simpa using hadm k q hk
  have hface : (cards.map (fun c => c.quantity * c.imageURIs.length)).sum
      = (cards.map (fun c =>
          c.quantity * (if c.layout = "transform" ∨ c.layout = "modal_dfc" then 2 else 1))).sum := by
    congr 1
    apply List.map_congr_left
    intro c hc
    rw [himg c hc]
    unfold cardImageURIs
    by_cases hl : c.layout = "transform" ∨ c.layout = "modal_dfc"
    · rw [if_pos hl, if_pos hl]
      rfl
    · rw [if_neg hl, if_neg hl]
      rfl
  rw [hlen, huri, hface]

/-- Witness for C6: a transform card with quantity 2 and a single-face card
with quantity 3 give 2x2 + 3x1 = 7 pages. -/
theorem C6_page_count_witness :
    Option.map List.length (GeneratePDF mixedCards (permOf mixedCards) (List.range 7)
        (fun i => some [i]) (fun b => true) true)
      = some ((mixedCards.map (fun c =>
          c.quantity * (if c.layout = "transform" ∨ c.layout = "modal_dfc" then 2 else 1))).sum) :=
  C6_page_count mixedCards (permOf mixedCards) (List.range 7) (fun i => some [i]) (fun b => true)
    (permOf_admissible mixedCards) (by decide) (by decide) (fun i hi => rfl)

/-- C10 counterexample: 3 fetched single-face cards where the bytes of index
1 fail to decode.  The document still has 3 pages — the failing index's page
is present, merely without its artwork — refuting the claim that the page is
omitted. -/
theorem C10_decode_failure_counterexample :
    (processDecklist ['x'] (some threeCards) (permOf threeCards) [0, 1, 2]
        (fun i => some [i]) decNot1 true).doc
      = some [⟨0, frontURI "s" "1", true⟩, ⟨1, frontURI "s" "2", false⟩,
          ⟨2, frontURI "s" "3", true⟩]
    ∧ Option.map List.length (processDecklist ['x'] (some threeCards) (permOf threeCards)
        [0, 1, 2] (fun i => some [i]) decNot1 true).doc = some 3 := by
  decide

/-- C10 amended: during assembly, a fetched image whose bytes fail to decode
or convert keeps its page (added before conversion; only the artwork is
omitted, the background-only page remains) and assembly continues — the job
completes with one page per fetched index in order, artwork present exactly
when decoding succeeded; and a failure to serialize the final document (and
only that stage) aborts generation, putting the job in "error". -/
theorem C10_decode_failure_amended (d : List Char) (cards : List Card)
    (perm : Nat → Nat → List (String × URI)) (order : List Nat)
    (fetch : Nat → Option (List Nat)) (decodeOK : List Nat → Bool)
    (hne : nonEmptyLines d ≠ [])
    (hord : order.Perm (List.range (allURIs cards perm).length)) :
    (finalState (processDecklist d (some cards) perm order fetch decodeOK true)).status
        = "complete"
    ∧ (processDecklist d (some cards) perm order fetch decodeOK true).doc
        = some (assemblePages (allURIs cards perm) fetch decodeOK)
    ∧ (∀ p ∈ assemblePages (allURIs cards perm) fetch decodeOK,
        ∃ b, fetch p.idx = some b ∧ p.hasImage = decodeOK b)
    ∧ (assemblePages (allURIs cards perm) fetch decodeOK).map Page.idx
        = (List.range (allURIs cards perm).length).filter (fun i => (fetch i).isSome)
    ∧ (finalState (processDecklist d (some cards) perm order fetch decodeOK false)).status
        = "error" := by
  have hrun := processDecklist_ok d cards perm order fetch decodeOK true hne
    (assemblePages (allURIs cards perm) fetch decodeOK)
    (generatePDF_collapse cards perm order fetch decodeOK hord)
  have hfail := processDecklist_genFail d cards perm order fetch decodeOK false hne
    (generatePDF_write_fail cards perm order fetch decodeOK)
  rw [hrun, hfail]
  refine ⟨rfl, rfl, ?_, ?_, rfl⟩
  · intro p hp
    exact assembleFrom_hasImage fetch decodeOK 0 (allURIs cards perm) p hp
  · rw [List.range_eq_range' (allURIs cards perm).length]
    exact assembleFrom_map_idx fetch decodeOK 0 (allURIs cards perm)

/-- Witness for C10 amended: with a decode failure present, a serialization
failure still turns the job to "error" (and, per the other conjuncts, the
successful-write run completes). -/
theorem C10_decode_failure_amended_witness :
    (finalState (processDecklist ['y'] (some threeCards) (permOf threeCards) (List.range 3)
        (fun i => some [i]) decNot1 false)).status = "error" :=
  (C10_decode_failure_amended ['y'] threeCards (permOf threeCards) (List.range 3)
      (fun i => some [i]) decNot1 (by decide) (by decide)).2.2.2.2

end Grimoire
